import Mathlib

/-!
HTTP Basic Authentication gate of git-http-backend.

A shallow embedding of the authorization gate of the repository
(`main.go`: `basicAuthMiddleware`, `validateCredentials`, `unauthorized`;
`auth/auth.go`: `NewBasicAuth`, `(*BasicAuth).Middleware`,
`(*BasicAuth).validateCredentials`, `(*BasicAuth).unauthorized`) together
with the parts of the Go standard library the gate calls
(`strings.Cut`, `encoding/base64`, `net/textproto`, `net/http`).

Go strings are byte sequences, so a string is a list of bytes and `==` on
strings is equality of lists.  A handler is a function of the response
writer, the request and the state of the downstream component; it returns
all three, since Go handlers mutate them in place.
-/

namespace GitHttpBackend

/-- A Go `byte`. -/
abbrev Byte := Fin 256

/-- A Go `string`: an immutable sequence of bytes. -/
abbrev GoString := List Byte

/-- The Go conversion `byte(n)` of an unsigned integer: truncation to eight bits. -/
def byte (n : Nat) : Byte := Fin.ofNat n

/-- The bytes of a string literal of the source (ASCII only). -/
def ascii (s : String) : GoString := s.toList.map fun c => byte c.toNat

/-! ## package strings -/

namespace strings

/-- Go `strings.Index(s, substr)`: the index of the first instance of `substr`
in `s`, or `-1` if `substr` is not present in `s`. -/
def Index : GoString → GoString → Int
  | [], substr => if substr = [] then 0 else -1
  | c :: s, substr =>
    if substr.isPrefixOf (c :: s) then 0
    else
      let i := Index s substr
      if i < 0 then -1 else i + 1

/-- Go `strings.Cut(s, sep)`:
```go
if i := Index(s, sep); i >= 0 {
	return s[:i], s[i+len(sep):], true
}
return s, "", false
``` -/
def Cut (s sep : GoString) : GoString × GoString × Bool :=
  let i := Index s sep
  if i ≥ 0 then (s.take i.toNat, s.drop (i.toNat + sep.length), true)
  else (s, [], false)

end strings

/-! ## package net/http/internal/ascii -/

namespace asciiPkg

/-- Go `lower(b)`: the ASCII lowercase version of `b`. -/
def lower (b : Byte) : Byte :=
  if 65 ≤ b.val ∧ b.val ≤ 90 then byte (b.val + (97 - 65)) else b

/-- Go `ascii.EqualFold(s, t)`: `s` and `t` have the same length and the same
bytes up to ASCII case. -/
def EqualFold : GoString → GoString → Bool
  | [], [] => true
  | a :: s, b :: t => if lower a ≠ lower b then false else EqualFold s t
  | _, _ => false

end asciiPkg

/-! ## package encoding/base64 (`StdEncoding`: standard alphabet, padding `=`, not strict) -/

namespace base64

/-- The alphabet of `StdEncoding`. -/
def encodeStd : GoString :=
  ascii "ABCDEFGHIJKLMNOPQRSTUVWXYZabcdefghijklmnopqrstuvwxyz0123456789+/"

/-- Go `StdPadding`, the byte `=`. -/
def padChar : Byte := 61

/-- Go `enc.encode[i]`. -/
def encode (i : Nat) : Byte := encodeStd.getD i 0

/-- Go `enc.decodeMap[c]`: the index of `c` in the alphabet, `0xff` for a byte
outside the alphabet. -/
def decodeMap (c : Byte) : Nat :=
  let i := encodeStd.indexOf c
  if i < 64 then i else 0xff

/-- Go `enc.EncodeToString(src)`: every three bytes become four alphabet bytes;
a remainder of one or two bytes is encoded and padded to four. -/
def EncodeToString : List Byte → GoString
  | a :: b :: c :: rest =>
    let val := a.val * 2 ^ 16 + b.val * 2 ^ 8 + c.val
    encode (val / 2 ^ 18 % 64) :: encode (val / 2 ^ 12 % 64) ::
      encode (val / 2 ^ 6 % 64) :: encode (val % 64) :: EncodeToString rest
  | [a, b] =>
    let val := a.val * 2 ^ 16 + b.val * 2 ^ 8
    [encode (val / 2 ^ 18 % 64), encode (val / 2 ^ 12 % 64), encode (val / 2 ^ 6 % 64), padChar]
  | [a] =>
    let val := a.val * 2 ^ 16
    [encode (val / 2 ^ 18 % 64), encode (val / 2 ^ 12 % 64), padChar, padChar]
  | [] => []

/-- The loop `for si < len(src) && (src[si] == '\n' || src[si] == '\r') { si++ }`. -/
def skipNewlines : GoString → GoString
  | [] => []
  | c :: rest => if c = 10 ∨ c = 13 then skipNewlines rest else c :: rest

/-- The end of `decodeQuantum`: the 6-bit values of `dbuf` are packed into
`val`, and `dlen - 1` bytes of it are written. -/
def quantumBytes (dbuf : List Nat) (dlen : Nat) : List Byte :=
  let val := dbuf.getD 0 0 * 2 ^ 18 + dbuf.getD 1 0 * 2 ^ 12 + dbuf.getD 2 0 * 2 ^ 6 + dbuf.getD 3 0
  ([byte (val / 2 ^ 16), byte (val / 2 ^ 8), byte val] : List Byte).take (dlen - 1)

/-- The result of `decodeQuantum`: the unread input `src[nsi:]`, the bytes
written, and whether `err != nil`. -/
structure Quantum where
  rest : GoString
  out : List Byte
  err : Bool
  deriving DecidableEq, Repr

/-- After the padding of a quantum: newlines are skipped and anything that
follows is trailing garbage. -/
def afterPadding (rest : GoString) (dbuf : List Nat) : Quantum :=
  let rest1 := skipNewlines rest
  ⟨rest1, quantumBytes dbuf dbuf.length, !rest1.isEmpty⟩

/-- Go `enc.decodeQuantum(dst, src, si)`: reads up to four alphabet bytes from
`src`, skipping `\n` and `\r`; `dbuf` holds the values read so far (its
length is the loop counter `j`). -/
def decodeQuantum : GoString → List Nat → Quantum
  | [], dbuf =>
    if dbuf.length = 0 then ⟨[], [], false⟩ else ⟨[], [], true⟩
  | c :: rest, dbuf =>
    let out := decodeMap c
    if out ≠ 0xff then
      if dbuf.length = 3 then ⟨rest, quantumBytes (dbuf ++ [out]) 4, false⟩
      else decodeQuantum rest (dbuf ++ [out])
    else if c = 10 ∨ c = 13 then decodeQuantum rest dbuf
    else if c ≠ padChar then ⟨rest, [], true⟩
    else
      match dbuf.length with
      | 0 => ⟨rest, [], true⟩
      | 1 => ⟨rest, [], true⟩
      | 2 =>
        match skipNewlines rest with
        | [] => ⟨[], [], true⟩
        | c2 :: rest2 =>
          if c2 ≠ padChar then ⟨c2 :: rest2, [], true⟩ else afterPadding rest2 dbuf
      | _ => afterPadding rest dbuf

/-- Go `enc.Decode(dst, src)`: quanta are decoded while input remains; the
first error stops the decoding.  `fuel` bounds the number of quanta and
`none` stands for `err != nil`. -/
def Decode : Nat → GoString → Option (List Byte)
  | _, [] => some []
  | 0, _ :: _ => none
  | fuel + 1, c :: src =>
    let q := decodeQuantum (c :: src) []
    if q.err then none else (Decode fuel q.rest).map (q.out ++ ·)

/-- Go `enc.DecodeString(s)`; every quantum consumes at least one byte, so
`len(s)` quanta are enough. -/
def DecodeString (s : GoString) : Option (List Byte) := Decode s.length s

end base64

/-! ## package net/textproto -/

namespace textproto

/-- Go `validHeaderFieldByte(c)`: `c` is a byte of an RFC 7230 token: a letter,
a digit or one of ``!#$%&'*+-.^_`|~``. -/
def validHeaderFieldByte (c : Byte) : Bool :=
  (48 ≤ c.val ∧ c.val ≤ 57) ∨ (97 ≤ c.val ∧ c.val ≤ 122) ∨ (65 ≤ c.val ∧ c.val ≤ 90) ∨
    c.val ∈ [33, 35, 36, 37, 38, 39, 42, 43, 45, 46, 94, 95, 96, 124, 126]

/-- The canonicalising loop of `canonicalMIMEHeaderKey`: the first letter
and every letter after a hyphen are upper-cased, the other letters
lower-cased. -/
def canonicalLoop : Bool → GoString → GoString
  | _, [] => []
  | upper, c :: a =>
    let c1 : Byte :=
      if upper ∧ 97 ≤ c.val ∧ c.val ≤ 122 then byte (c.val - 32)
      else if ¬ upper ∧ 65 ≤ c.val ∧ c.val ≤ 90 then byte (c.val + 32)
      else c
    c1 :: canonicalLoop (c1 = 45) a

/-- Go `textproto.CanonicalMIMEHeaderKey(s)`: a key with a byte that is not a
token byte (a space included) is returned unchanged; any other key is
returned in canonical form. -/
def CanonicalMIMEHeaderKey (s : GoString) : GoString :=
  if s.all validHeaderFieldByte then canonicalLoop true s else s

end textproto

/-! ## package net/http -/

namespace http

/-- Go `http.Header`, a `map[string][]string`: `none` for a key that is not in
the map. -/
abbrev Header := GoString → Option (List GoString)

/-- The empty map `make(http.Header)`. -/
def Header.empty : Header := fun _ => none

/-- Go `h.Get(key)`: the first value of the canonical form of `key`, `""` when
there is none. -/
def Header.Get (h : Header) (key : GoString) : GoString :=
  match h (textproto.CanonicalMIMEHeaderKey key) with
  | some (v :: _) => v
  | _ => []

/-- Go `h.Set(key, value)`: `h[CanonicalMIMEHeaderKey(key)] = []string{value}`. -/
def Header.Set (h : Header) (key value : GoString) : Header :=
  fun k => if k = textproto.CanonicalMIMEHeaderKey key then some [value] else h k

/-- Go `h.Del(key)`: `delete(h, CanonicalMIMEHeaderKey(key))`. -/
def Header.Del (h : Header) (key : GoString) : Header :=
  fun k => if k = textproto.CanonicalMIMEHeaderKey key then none else h k

/-- The fields of `http.Request` a handler reads. -/
structure Request where
  Method : GoString
  RequestURI : GoString
  Header : Header
  Body : GoString

/-- Go `http.StatusUnauthorized`. -/
def StatusUnauthorized : Nat := 401

/-- Go `http.StatusOK`. -/
def StatusOK : Nat := 200

/-- The state behind an `http.ResponseWriter`, as kept by
`httptest.ResponseRecorder`: the header map a handler edits, whether the
status line was written, the status code, the headers as they were when
the status line was written, and the body written so far. -/
structure ResponseWriter where
  HeaderMap : Header
  wroteHeader : Bool
  Code : Nat
  snapHeader : Header
  Body : GoString

/-- Go `httptest.NewRecorder()`: the writer a handler gets for a new request. -/
def NewRecorder : ResponseWriter :=
  { HeaderMap := Header.empty, wroteHeader := false, Code := 200,
    snapHeader := Header.empty, Body := [] }

/-- Go `w.WriteHeader(code)`: the first call fixes the status code and the
headers of the response; later calls do nothing. -/
def ResponseWriter.WriteHeader (w : ResponseWriter) (code : Nat) : ResponseWriter :=
  if w.wroteHeader then w
  else { w with Code := code, wroteHeader := true, snapHeader := w.HeaderMap }

/-- Go `w.Write(buf)`: writes the status line with 200 if no status was written
yet, then appends `buf` to the body. -/
def ResponseWriter.Write (w : ResponseWriter) (buf : GoString) : ResponseWriter :=
  let w1 := if w.wroteHeader then w else w.WriteHeader StatusOK
  { w1 with Body := w1.Body ++ buf }

/-- The response a client receives: status code, headers and body. -/
structure Response where
  StatusCode : Nat
  Header : Header
  Body : GoString

/-- Go `rw.Result()`: the response written so far; a writer on which nothing
was written answers with its current headers. -/
def ResponseWriter.Result (w : ResponseWriter) : Response :=
  { StatusCode := w.Code,
    Header := if w.wroteHeader then w.snapHeader else w.HeaderMap,
    Body := w.Body }

/-- Go `http.Error(w, error, code)`:
```go
h := w.Header()
h.Del("Content-Length")
h.Set("Content-Type", "text/plain; charset=utf-8")
h.Set("X-Content-Type-Options", "nosniff")
w.WriteHeader(code)
fmt.Fprintln(w, error)
``` -/
def Error (w : ResponseWriter) (error : GoString) (code : Nat) : ResponseWriter :=
  let h := w.HeaderMap
  let h := h.Del (ascii "Content-Length")
  let h := h.Set (ascii "Content-Type") (ascii "text/plain; charset=utf-8")
  let h := h.Set (ascii "X-Content-Type-Options") (ascii "nosniff")
  let w := { w with HeaderMap := h }
  let w := w.WriteHeader code
  w.Write (error ++ [10])

/-- Go `parseBasicAuth(auth)`: the header value must start with `Basic `
(in any case), the rest must be base64, and the decoded text is cut at its
first colon. -/
def parseBasicAuth (auth : GoString) : GoString × GoString × Bool :=
  let basic := ascii "Basic "
  if auth.length < basic.length ∨ ! asciiPkg.EqualFold (auth.take basic.length) basic then
    ([], [], false)
  else
    match base64.DecodeString (auth.drop basic.length) with
    | none => ([], [], false)
    | some c =>
      let (username, password, ok) := strings.Cut c (ascii ":")
      if ! ok then ([], [], false) else (username, password, true)

/-- Go `r.BasicAuth()`: the username and password of the request's
`Authorization` header, if the request uses HTTP Basic Authentication. -/
def Request.BasicAuth (r : Request) : GoString × GoString × Bool :=
  let auth := r.Header.Get (ascii "Authorization")
  if auth = [] then ([], [], false) else parseBasicAuth auth

/-- Go `basicAuth(username, password)`: the base64 encoding of
`username + ":" + password`. -/
def basicAuth (username password : GoString) : GoString :=
  base64.EncodeToString (username ++ ascii ":" ++ password)

/-- Go `r.SetBasicAuth(username, password)`:
`r.Header.Set("Authorization", "Basic "+basicAuth(username, password))`. -/
def Request.SetBasicAuth (r : Request) (username password : GoString) : Request :=
  let h := r.Header.Set (ascii "Authorization") (ascii "Basic " ++ basicAuth username password)
  { r with Header := h }

/-- An `http.Handler` over a downstream component with state `σ`:
`ServeHTTP(w, r)` may write to `w`, edit `r` and change the state. -/
abbrev Handler (σ : Type) := ResponseWriter → Request → σ → ResponseWriter × Request × σ

end http

open http

/-! ## package main (main.go) -/

namespace main

/-- Go `type Config struct`. -/
structure Config where
  Port : Int
  ServerTempDir : GoString
  Username : GoString
  Password : GoString

/-- Go `validateCredentials(username, password)`, reading the package variable
`config`:
`return username == config.Username && password == config.Password`. -/
def validateCredentials (config : Config) (username password : GoString) : Bool :=
  username == config.Username && password == config.Password

/-- Go `unauthorized(w)`:
```go
w.Header().Set("WWW-Authenticate", `Basic realm="Restricted"`)
http.Error(w, "Unauthorized", http.StatusUnauthorized)
``` -/
def unauthorized (w : ResponseWriter) : ResponseWriter :=
  let h := w.HeaderMap.Set (ascii "WWW-Authenticate") (ascii "Basic realm=\"Restricted\"")
  let w := { w with HeaderMap := h }
  http.Error w (ascii "Unauthorized") StatusUnauthorized

/-- Go `basicAuthMiddleware(next)`. -/
def basicAuthMiddleware {σ : Type} (config : Config) (next : Handler σ) : Handler σ :=
  fun w r s =>
    let (username, password, ok) := r.BasicAuth
    if ! ok then (unauthorized w, r, s)
    else if ! validateCredentials config username password then (unauthorized w, r, s)
    else
      -- Set the authenticated username in the request header for downstream handlers
      let r := { r with Header := r.Header.Set (ascii "X-Remote-User") username }
      next w r s

end main

/-! ## package auth (auth/auth.go) -/

namespace auth

/-- Go `type Credentials struct`. -/
structure Credentials where
  Username : GoString
  Password : GoString
  deriving DecidableEq

/-- Go `type BasicAuth struct`. -/
structure BasicAuth where
  credentials : Credentials
  deriving DecidableEq

/-- Go `NewBasicAuth(username, password)`. -/
def NewBasicAuth (username password : GoString) : BasicAuth :=
  { credentials := { Username := username, Password := password } }

/-- Go `(ba *BasicAuth).validateCredentials(username, password)`. -/
def BasicAuth.validateCredentials (ba : BasicAuth) (username password : GoString) : Bool :=
  username == ba.credentials.Username && password == ba.credentials.Password

/-- Go `(ba *BasicAuth).unauthorized(w)`. -/
def BasicAuth.unauthorized (_ba : BasicAuth) (w : ResponseWriter) : ResponseWriter :=
  let h := w.HeaderMap.Set (ascii "WWW-Authenticate") (ascii "Basic realm=\"Restricted\"")
  let w := { w with HeaderMap := h }
  http.Error w (ascii "Unauthorized") StatusUnauthorized

/-- Go `(ba *BasicAuth).Middleware(next)`. -/
def BasicAuth.Middleware {σ : Type} (ba : BasicAuth) (next : Handler σ) : Handler σ :=
  fun w r s =>
    let (username, password, ok) := r.BasicAuth
    if ! ok then (ba.unauthorized w, r, s)
    else if ! ba.validateCredentials username password then (ba.unauthorized w, r, s)
    else next w r s

end auth

/-! ## Test doubles -/

/-- A downstream handler that counts its invocations: the mock of the
tests, wrapped around any handler. -/
def counted {σ : Type} (next : Handler σ) : Handler (σ × Nat) :=
  fun w r s =>
    let out := next w r s.1
    (out.1, out.2.1, (out.2.2, s.2 + 1))

/-- A downstream handler that records every request it is handed. -/
def spy : Handler (List Request) :=
  fun w r log => (w, r, log ++ [r])

/-- A downstream handler that answers 200 with the body `ok`. -/
def okHandler : Handler Unit :=
  fun w r s => ((w.WriteHeader StatusOK).Write (ascii "ok"), r, s)

/-- A request with the given header map and nothing else. -/
def requestWith (h : Header) : Request :=
  { Method := ascii "GET", RequestURI := ascii "/test-repo.git/info/refs", Header := h, Body := [] }

/-- The configuration of the tests: `testuser` / `testpass`. -/
def testConfig : main.Config :=
  { Port := 3000, ServerTempDir := ascii "/tmp/git-test",
    Username := ascii "testuser", Password := ascii "testpass" }

/-- Scenario A: a request with no `Authorization` header. -/
def noAuthRequest : Request := requestWith Header.empty

/-- Scenario B: `req.SetBasicAuth("testuser", "testpass")`. -/
def goodRequest : Request :=
  (requestWith Header.empty).SetBasicAuth (ascii "testuser") (ascii "testpass")

/-- Scenario C: `req.SetBasicAuth("testuser", "wrongpass")`. -/
def wrongPassRequest : Request :=
  (requestWith Header.empty).SetBasicAuth (ascii "testuser") (ascii "wrongpass")

/-- Scenario D: an `Authorization` header whose payload is not valid base64. -/
def malformedRequest : Request :=
  requestWith (Header.empty.Set (ascii "Authorization") (ascii "Basic %%%not-base64%%%"))

/-- A request with the right credentials whose client also sent an
`X-Remote-User` header of its own. -/
def spoofingRequest : Request :=
  (requestWith (Header.empty.Set (ascii "X-Remote-User") (ascii "admin"))).SetBasicAuth
    (ascii "testuser") (ascii "testpass")

/-! ## Supporting lemmas: the gate -/

theorem main_validateCredentials_iff (config : main.Config) (username password : GoString) :
    main.validateCredentials config username password = true ↔
      username = config.Username ∧ password = config.Password := by
  simp [main.validateCredentials]

theorem auth_validateCredentials_iff (ba : auth.BasicAuth) (username password : GoString) :
    ba.validateCredentials username password = true ↔
      username = ba.credentials.Username ∧ password = ba.credentials.Password := by
  simp [auth.BasicAuth.validateCredentials]

/-- Both early returns of `basicAuthMiddleware` answer with `unauthorized`
and leave the request and the downstream state alone. -/
theorem main_middleware_reject {σ : Type} (config : main.Config) (next : Handler σ)
    (w : ResponseWriter) (r : Request) (s : σ)
    (h : r.BasicAuth.2.2 = false ∨
      main.validateCredentials config r.BasicAuth.1 r.BasicAuth.2.1 = false) :
    main.basicAuthMiddleware config next w r s = (main.unauthorized w, r, s) := by
  unfold main.basicAuthMiddleware
  rcases hb : r.BasicAuth with ⟨un, pw, ok⟩
  rw [hb] at h
  rcases h with h | h
  · simp only at h
    simp [h]
  · simp only at h
    cases ok <;> simp [h]

/-- The last branch of `basicAuthMiddleware` hands the writer and the
annotated request to the downstream handler. -/
theorem main_middleware_pass {σ : Type} (config : main.Config) (next : Handler σ)
    (w : ResponseWriter) (r : Request) (s : σ) (un pw : GoString)
    (hb : r.BasicAuth = (un, pw, true)) (hv : main.validateCredentials config un pw = true) :
    main.basicAuthMiddleware config next w r s =
      next w { r with Header := r.Header.Set (ascii "X-Remote-User") un } s := by
  unfold main.basicAuthMiddleware
  rw [hb]
  simp [hv]

theorem auth_middleware_reject {σ : Type} (ba : auth.BasicAuth) (next : Handler σ)
    (w : ResponseWriter) (r : Request) (s : σ)
    (h : r.BasicAuth.2.2 = false ∨
      ba.validateCredentials r.BasicAuth.1 r.BasicAuth.2.1 = false) :
    ba.Middleware next w r s = (ba.unauthorized w, r, s) := by
  unfold auth.BasicAuth.Middleware
  rcases hb : r.BasicAuth with ⟨un, pw, ok⟩
  rw [hb] at h
  rcases h with h | h
  · simp only at h
    simp [h]
  · simp only at h
    cases ok <;> simp [h]

theorem auth_middleware_pass {σ : Type} (ba : auth.BasicAuth) (next : Handler σ)
    (w : ResponseWriter) (r : Request) (s : σ) (un pw : GoString)
    (hb : r.BasicAuth = (un, pw, true)) (hv : ba.validateCredentials un pw = true) :
    ba.Middleware next w r s = next w r s := by
  unfold auth.BasicAuth.Middleware
  rw [hb]
  simp [hv]

/-- A pair of extracted credentials that differs from the configured pair
fails `validateCredentials` of `main.go`. -/
theorem main_validate_false_of_ne (port : Int) (dir u p un pw : GoString)
    (h : (un, pw) ≠ (u, p)) : main.validateCredentials ⟨port, dir, u, p⟩ un pw = false := by
  rw [Bool.eq_false_iff, ne_eq, main_validateCredentials_iff]
  rintro ⟨h1, h2⟩
  exact h (by simp_all)

theorem auth_validate_false_of_ne (u p un pw : GoString)
    (h : (un, pw) ≠ (u, p)) : (auth.NewBasicAuth u p).validateCredentials un pw = false := by
  rw [Bool.eq_false_iff, ne_eq, auth_validateCredentials_iff]
  rintro ⟨h1, h2⟩
  exact h (by simp_all [auth.NewBasicAuth])

/-- The two `unauthorized` functions write the same response. -/
theorem auth_unauthorized_eq (ba : auth.BasicAuth) (w : ResponseWriter) :
    ba.unauthorized w = main.unauthorized w := rfl

/-- What `unauthorized` leaves in a writer whose status line is not written. -/
theorem main_unauthorized_fresh (w : ResponseWriter) (hw : w.wroteHeader = false) :
    main.unauthorized w =
      { HeaderMap := (((w.HeaderMap.Set (ascii "WWW-Authenticate")
            (ascii "Basic realm=\"Restricted\"")).Del (ascii "Content-Length")).Set
            (ascii "Content-Type") (ascii "text/plain; charset=utf-8")).Set
            (ascii "X-Content-Type-Options") (ascii "nosniff"),
        wroteHeader := true,
        Code := 401,
        snapHeader := (((w.HeaderMap.Set (ascii "WWW-Authenticate")
            (ascii "Basic realm=\"Restricted\"")).Del (ascii "Content-Length")).Set
            (ascii "Content-Type") (ascii "text/plain; charset=utf-8")).Set
            (ascii "X-Content-Type-Options") (ascii "nosniff"),
        Body := w.Body ++ (ascii "Unauthorized" ++ [10]) } := by
  simp [main.unauthorized, http.Error, ResponseWriter.WriteHeader, ResponseWriter.Write, hw,
    StatusUnauthorized]

/-! ## Supporting lemmas: strings.Cut at a single byte -/

theorem strings.Index_of_not_mem (b : Byte) : ∀ s : GoString, b ∉ s → strings.Index s [b] = -1
  | [], _ => by simp [strings.Index]
  | c :: s, h => by
    have hc : b ≠ c := fun e => h (by simp [e])
    have hs : b ∉ s := fun e => h (by simp [e])
    simp [strings.Index, hc, strings.Index_of_not_mem b s hs]

theorem strings.Index_append (b : Byte) (post : GoString) :
    ∀ pre : GoString, b ∉ pre → strings.Index (pre ++ b :: post) [b] = pre.length
  | [], _ => by simp [strings.Index]
  | c :: pre, h => by
    have hc : b ≠ c := fun e => h (by simp [e])
    have hs : b ∉ pre := fun e => h (by simp [e])
    have ih := strings.Index_append b post pre hs
    simp only [List.cons_append, strings.Index, ih]
    simp [hc]
    omega

/-- A string that contains `b` splits at the first `b`. -/
theorem strings.split_first (b : Byte) :
    ∀ s : GoString, b ∈ s → ∃ pre post, s = pre ++ b :: post ∧ b ∉ pre
  | [], h => by simp at h
  | c :: s, h => by
    by_cases hc : b = c
    · exact ⟨[], s, by simp [hc], by simp⟩
    · have hs : b ∈ s := by
        rcases List.mem_cons.mp h with h | h
        · exact absurd h hc
        · exact h
      obtain ⟨pre, post, e, hn⟩ := strings.split_first b s hs
      exact ⟨c :: pre, post, by simp [e], by simp [hc, hn]⟩

/-- Cutting `pre + b + post` at `b`, when `pre` has no `b`, gives `pre` and `post`. -/
theorem strings.Cut_append (b : Byte) (pre post : GoString) (h : b ∉ pre) :
    strings.Cut (pre ++ b :: post) [b] = (pre, post, true) := by
  simp [strings.Cut, strings.Index_append b post pre h]

/-- A string without `b` is not cut. -/
theorem strings.Cut_of_not_mem (b : Byte) (s : GoString) (h : b ∉ s) :
    strings.Cut s [b] = (s, [], false) := by
  simp [strings.Cut, strings.Index_of_not_mem b s h]

/-- The part before a successful cut at `b` has no `b`. -/
theorem strings.Cut_before_not_mem (b : Byte) (s x y : GoString)
    (h : strings.Cut s [b] = (x, y, true)) : b ∉ x := by
  by_cases hs : b ∈ s
  · obtain ⟨pre, post, e, hn⟩ := strings.split_first b s hs
    rw [e, strings.Cut_append b pre post hn] at h
    simp only [Prod.mk.injEq] at h
    rw [← h.1]
    exact hn
  · rw [strings.Cut_of_not_mem b s hs] at h
    simp at h

/-! ## Supporting lemmas: base64 -/

theorem base64.decodeMap_encode_fin : ∀ i : Fin 64, base64.decodeMap (base64.encode i.val) = i.val := by
  decide

theorem base64.decodeMap_encode (i : Nat) (h : i < 64) : base64.decodeMap (base64.encode i) = i :=
  base64.decodeMap_encode_fin ⟨i, h⟩

theorem base64.decodeMap_padChar : base64.decodeMap base64.padChar = 0xff := by decide

/-- Four alphabet bytes make a full quantum. -/
theorem base64.decodeQuantum_full (s0 s1 s2 s3 : Nat) (h0 : s0 < 64) (h1 : s1 < 64)
    (h2 : s2 < 64) (h3 : s3 < 64) (rest : GoString) :
    base64.decodeQuantum
        (base64.encode s0 :: base64.encode s1 :: base64.encode s2 :: base64.encode s3 :: rest) [] =
      ⟨rest, base64.quantumBytes [s0, s1, s2, s3] 4, false⟩ := by
  have e0 : s0 ≠ 255 := by omega
  have e1 : s1 ≠ 255 := by omega
  have e2 : s2 ≠ 255 := by omega
  have e3 : s3 ≠ 255 := by omega
  simp [base64.decodeQuantum, base64.decodeMap_encode, h0, h1, h2, h3, e0, e1, e2, e3]

/-- Three alphabet bytes and one padding byte end the input with two bytes. -/
theorem base64.decodeQuantum_pad1 (s0 s1 s2 : Nat) (h0 : s0 < 64) (h1 : s1 < 64)
    (h2 : s2 < 64) :
    base64.decodeQuantum
        [base64.encode s0, base64.encode s1, base64.encode s2, base64.padChar] [] =
      ⟨[], base64.quantumBytes [s0, s1, s2] 3, false⟩ := by
  have e0 : s0 ≠ 255 := by omega
  have e1 : s1 ≠ 255 := by omega
  have e2 : s2 ≠ 255 := by omega
  have hp1 : base64.padChar ≠ 10 := by decide
  have hp2 : base64.padChar ≠ 13 := by decide
  simp [base64.decodeQuantum, base64.decodeMap_encode, base64.decodeMap_padChar, h0, h1, h2,
    e0, e1, e2, hp1, hp2, base64.afterPadding, base64.skipNewlines]

/-- Two alphabet bytes and two padding bytes end the input with one byte. -/
theorem base64.decodeQuantum_pad2 (s0 s1 : Nat) (h0 : s0 < 64) (h1 : s1 < 64) :
    base64.decodeQuantum
        [base64.encode s0, base64.encode s1, base64.padChar, base64.padChar] [] =
      ⟨[], base64.quantumBytes [s0, s1] 2, false⟩ := by
  have e0 : s0 ≠ 255 := by omega
  have e1 : s1 ≠ 255 := by omega
  have hp1 : base64.padChar ≠ 10 := by decide
  have hp2 : base64.padChar ≠ 13 := by decide
  simp [base64.decodeQuantum, base64.decodeMap_encode, base64.decodeMap_padChar, h0, h1,
    e0, e1, hp1, hp2, base64.afterPadding, base64.skipNewlines]

theorem byte_val (n : Nat) : (byte n).val = n % 256 := rfl

/-- The three bytes of a full quantum are the three bytes that were encoded. -/
theorem base64.quantumBytes_full (a b c : Byte) :
    base64.quantumBytes
      [(a.val * 2 ^ 16 + b.val * 2 ^ 8 + c.val) / 2 ^ 18 % 64,
       (a.val * 2 ^ 16 + b.val * 2 ^ 8 + c.val) / 2 ^ 12 % 64,
       (a.val * 2 ^ 16 + b.val * 2 ^ 8 + c.val) / 2 ^ 6 % 64,
       (a.val * 2 ^ 16 + b.val * 2 ^ 8 + c.val) % 64] 4 = [a, b, c] := by
  have ha := a.isLt
  have hb := b.isLt
  have hc := c.isLt
  simp only [base64.quantumBytes, List.getD_cons_zero, List.getD_cons_succ, List.take,
    Nat.reduceSub, Nat.reducePow]
  refine List.cons_eq_cons.mpr ⟨Fin.ext ?_, List.cons_eq_cons.mpr ⟨Fin.ext ?_,
    List.cons_eq_cons.mpr ⟨Fin.ext ?_, rfl⟩⟩⟩ <;> rw [byte_val] <;> omega

theorem base64.quantumBytes_pad1 (a b : Byte) :
    base64.quantumBytes
      [(a.val * 2 ^ 16 + b.val * 2 ^ 8) / 2 ^ 18 % 64,
       (a.val * 2 ^ 16 + b.val * 2 ^ 8) / 2 ^ 12 % 64,
       (a.val * 2 ^ 16 + b.val * 2 ^ 8) / 2 ^ 6 % 64] 3 = [a, b] := by
  have ha := a.isLt
  have hb := b.isLt
  simp only [base64.quantumBytes, List.getD_cons_zero, List.getD_cons_succ, List.take,
    Nat.reduceSub, Nat.reducePow, List.getD_nil]
  refine List.cons_eq_cons.mpr ⟨Fin.ext ?_, List.cons_eq_cons.mpr ⟨Fin.ext ?_, rfl⟩⟩ <;>
    rw [byte_val] <;> omega

theorem base64.quantumBytes_pad2 (a : Byte) :
    base64.quantumBytes
      [(a.val * 2 ^ 16) / 2 ^ 18 % 64, (a.val * 2 ^ 16) / 2 ^ 12 % 64] 2 = [a] := by
  have ha := a.isLt
  simp only [base64.quantumBytes, List.getD_cons_zero, List.getD_cons_succ, List.take,
    Nat.reduceSub, Nat.reducePow, List.getD_nil]
  refine List.cons_eq_cons.mpr ⟨Fin.ext ?_, rfl⟩
  rw [byte_val]
  omega

/-- Decoding inverts encoding, with any fuel that covers the encoded length. -/
theorem base64.Decode_EncodeToString :
    ∀ (data : List Byte) (fuel : Nat), (base64.EncodeToString data).length ≤ fuel →
      base64.Decode fuel (base64.EncodeToString data) = some data
  | [], fuel, _ => by cases fuel <;> simp [base64.EncodeToString, base64.Decode]
  | [a], fuel, h => by
    obtain ⟨f, rfl⟩ : ∃ f, fuel = f + 1 := ⟨fuel - 1, by simp [base64.EncodeToString] at h; omega⟩
    simp only [base64.EncodeToString, base64.Decode]
    rw [base64.decodeQuantum_pad2 _ _ (Nat.mod_lt _ (by decide)) (Nat.mod_lt _ (by decide)),
      base64.quantumBytes_pad2]
    simp [base64.Decode]
  | [a, b], fuel, h => by
    obtain ⟨f, rfl⟩ : ∃ f, fuel = f + 1 := ⟨fuel - 1, by simp [base64.EncodeToString] at h; omega⟩
    simp only [base64.EncodeToString, base64.Decode]
    rw [base64.decodeQuantum_pad1 _ _ _ (Nat.mod_lt _ (by decide)) (Nat.mod_lt _ (by decide))
      (Nat.mod_lt _ (by decide)), base64.quantumBytes_pad1]
    simp [base64.Decode]
  | a :: b :: c :: rest, fuel, h => by
    obtain ⟨f, rfl⟩ : ∃ f, fuel = f + 1 := ⟨fuel - 1, by simp [base64.EncodeToString] at h; omega⟩
    have hf : (base64.EncodeToString rest).length ≤ f := by
      simp [base64.EncodeToString] at h
      omega
    simp only [base64.EncodeToString, base64.Decode]
    rw [base64.decodeQuantum_full _ _ _ _ (Nat.mod_lt _ (by decide)) (Nat.mod_lt _ (by decide))
      (Nat.mod_lt _ (by decide)) (Nat.mod_lt _ (by decide)), base64.quantumBytes_full]
    simp [base64.Decode_EncodeToString rest f hf]

/-- Go `DecodeString(EncodeToString(data)) = data`. -/
theorem base64.DecodeString_EncodeToString (data : List Byte) :
    base64.DecodeString (base64.EncodeToString data) = some data :=
  base64.Decode_EncodeToString data _ (Nat.le_refl _)

theorem base64.skipNewlines_length_le :
    ∀ s : GoString, (base64.skipNewlines s).length ≤ s.length
  | [] => by simp [base64.skipNewlines]
  | c :: s => by
    have ih := base64.skipNewlines_length_le s
    unfold base64.skipNewlines
    split
    · simp; omega
    · simp

/-- A quantum read from a non-empty input consumes at least one byte. -/
theorem base64.decodeQuantum_rest_le :
    ∀ (src : GoString) (dbuf : List Nat),
      (base64.decodeQuantum src dbuf).rest.length ≤ src.length - 1
  | [], dbuf => by unfold base64.decodeQuantum; split <;> simp
  | c :: rest, dbuf => by
    have ih : ∀ d, (base64.decodeQuantum rest d).rest.length ≤ rest.length := fun d =>
      Nat.le_trans (base64.decodeQuantum_rest_le rest d) (Nat.sub_le _ _)
    have hs := base64.skipNewlines_length_le rest
    unfold base64.decodeQuantum
    simp only [List.length_cons, Nat.add_sub_cancel]
    split_ifs
    · simp
    · exact ih _
    · exact ih _
    · simp
    · split
      · simp
      · simp
      · split
        · simp
        · rename_i c2 rest2 hsk
          have h2 : (c2 :: rest2).length ≤ rest.length := hsk ▸ hs
          have h3 := base64.skipNewlines_length_le rest2
          simp only [List.length_cons] at h2
          split_ifs
          · simp only [List.length_cons]; omega
          · simp only [base64.afterPadding]; omega
      · simp only [base64.afterPadding]; omega

theorem base64.decodeQuantum_rest_lt (c : Byte) (rest : GoString) (dbuf : List Nat) :
    (base64.decodeQuantum (c :: rest) dbuf).rest.length ≤ rest.length := by
  simpa using base64.decodeQuantum_rest_le (c :: rest) dbuf

/-- Go `Decode` never runs out of fuel when the fuel covers the length of the
input: any two such amounts of fuel give the same result. -/
theorem base64.Decode_fuel :
    ∀ (fuel : Nat) (s : GoString) (fuel1 : Nat), s.length ≤ fuel → s.length ≤ fuel1 →
      base64.Decode fuel s = base64.Decode fuel1 s
  | fuel, [], fuel1, _, _ => by cases fuel <;> cases fuel1 <;> simp [base64.Decode]
  | 0, _ :: _, _, h, _ => by simp at h
  | _ + 1, _ :: _, 0, _, h => by simp at h
  | fuel + 1, c :: s, fuel1 + 1, h, h1 => by
    have hq := base64.decodeQuantum_rest_lt c s []
    simp only [List.length_cons, Nat.add_le_add_iff_right] at h h1
    simp only [base64.Decode]
    rw [base64.Decode_fuel fuel _ fuel1 (Nat.le_trans hq h) (Nat.le_trans hq h1)]

/-! ## Supporting lemmas: extraction of the credentials -/

theorem textproto.canonical_Authorization :
    textproto.CanonicalMIMEHeaderKey (ascii "Authorization") = ascii "Authorization" := by decide

theorem textproto.canonical_XRemoteUser :
    textproto.CanonicalMIMEHeaderKey (ascii "X-Remote-User") = ascii "X-Remote-User" := by decide

theorem textproto.canonical_WWWAuthenticate :
    textproto.CanonicalMIMEHeaderKey (ascii "WWW-Authenticate") = ascii "Www-Authenticate" := by
  decide

theorem ascii_colon : ascii ":" = [58] := by decide

theorem ascii_Basic : ascii "Basic " = [66, 97, 115, 105, 99, 32] := by decide

/-- A request without an `Authorization` entry has no Basic credentials. -/
theorem http.BasicAuth_absent (r : Request) (h : r.Header (ascii "Authorization") = none) :
    r.BasicAuth = ([], [], false) := by
  simp [Request.BasicAuth, Header.Get, textproto.canonical_Authorization, h]

/-- A successful `parseBasicAuth` went through every check. -/
theorem http.parseBasicAuth_ok (auth un pw : GoString)
    (h : parseBasicAuth auth = (un, pw, true)) :
    ¬ (auth.length < (ascii "Basic ").length ∨
        asciiPkg.EqualFold (auth.take (ascii "Basic ").length) (ascii "Basic ") = false) ∧
      ∃ c, base64.DecodeString (auth.drop (ascii "Basic ").length) = some c ∧
        strings.Cut c [58] = (un, pw, true) := by
  unfold parseBasicAuth at h
  simp only [ascii_colon] at h
  split_ifs at h with h1
  · simp at h
  · refine ⟨by simpa using h1, ?_⟩
    split at h
    · simp at h
    · rename_i c hc
      refine ⟨c, hc, ?_⟩
      rcases hcut : strings.Cut c [58] with ⟨x, y, ok⟩
      rw [hcut] at h
      cases ok
      · simp at h
      · simp only [Bool.not_true, Bool.false_eq_true, ↓reduceIte, Prod.mk.injEq, and_true] at h
        simp [h.1, h.2]

/-- A username extracted by `BasicAuth` contains no colon. -/
theorem http.BasicAuth_username_no_colon (r : Request) (un pw : GoString)
    (h : r.BasicAuth = (un, pw, true)) : (58 : Byte) ∉ un := by
  unfold Request.BasicAuth at h
  simp only at h
  split_ifs at h
  · simp at h
  · obtain ⟨_, c, _, hcut⟩ := http.parseBasicAuth_ok _ _ _ h
    exact strings.Cut_before_not_mem 58 c un pw hcut

/-- A failed `parseBasicAuth` returns empty strings. -/
theorem http.parseBasicAuth_fail (auth : GoString) (h : (parseBasicAuth auth).2.2 = false) :
    parseBasicAuth auth = ([], [], false) := by
  unfold parseBasicAuth at h ⊢
  dsimp only at h ⊢
  split_ifs with h1
  · rfl
  · rw [if_neg h1] at h
    split
    · rfl
    · rename_i c hc
      rw [hc] at h
      dsimp only at h
      rcases hcut : strings.Cut c (ascii ":") with ⟨x, y, ok⟩
      rw [hcut] at h
      cases ok
      · simp
      · simp at h

/-- A failed `BasicAuth` returns empty strings. -/
theorem http.BasicAuth_fail (r : Request) (h : r.BasicAuth.2.2 = false) :
    r.BasicAuth = ([], [], false) := by
  unfold Request.BasicAuth at h ⊢
  dsimp only at h ⊢
  split_ifs with h1
  · rfl
  · rw [if_neg h1] at h
    exact http.parseBasicAuth_fail _ h

/-- The username returned by `BasicAuth` never contains a colon. -/
theorem http.BasicAuth_fst_no_colon (r : Request) : (58 : Byte) ∉ r.BasicAuth.1 := by
  rcases hb : r.BasicAuth with ⟨un, pw, ok⟩
  cases ok
  · have h := http.BasicAuth_fail r (by rw [hb])
    rw [hb] at h
    simp only [Prod.mk.injEq] at h
    simp [h.1]
  · exact http.BasicAuth_username_no_colon r un pw hb

/-- Go `BasicAuth` recovers `(u, p)` from the header value `"Basic " + base64(u + ":" + p)`
when `u` has no colon. -/
theorem http.BasicAuth_of_header (r : Request) (u p : GoString) (hu : (58 : Byte) ∉ u)
    (hget : r.Header.Get (ascii "Authorization") =
      ascii "Basic " ++ base64.EncodeToString (u ++ ascii ":" ++ p)) :
    r.BasicAuth = (u, p, true) := by
  have hfold : asciiPkg.EqualFold (ascii "Basic ") (ascii "Basic ") = true := by decide
  unfold Request.BasicAuth
  simp only [hget]
  rw [if_neg (by simp [ascii_Basic])]
  unfold parseBasicAuth
  simp only [List.take_left', List.drop_left', hfold, List.length_append]
  rw [if_neg (by simp)]
  simp only [base64.DecodeString_EncodeToString, ascii_colon, List.append_assoc,
    List.singleton_append, strings.Cut_append 58 u p hu]
  simp

/-- The header `SetBasicAuth` writes. -/
theorem http.Get_SetBasicAuth (r : Request) (u p : GoString) :
    (r.SetBasicAuth u p).Header.Get (ascii "Authorization") =
      ascii "Basic " ++ base64.EncodeToString (u ++ ascii ":" ++ p) := by
  simp [Request.SetBasicAuth, Header.Get, Header.Set, basicAuth]

/-- The status of the response `unauthorized` writes to a writer whose
status line is not written. -/
theorem main_unauthorized_status (w : ResponseWriter) (hw : w.wroteHeader = false) :
    (main.unauthorized w).Result.StatusCode = 401 := by
  rw [main_unauthorized_fresh w hw]
  rfl

set_option maxRecDepth 100000 in
theorem asciiPkg.lower_eq_space : ∀ c : Byte, asciiPkg.lower c = 32 → c = 32 := by decide

set_option maxRecDepth 100000 in
theorem asciiPkg.lower_letter_ne_space :
    ∀ c : Byte, (asciiPkg.lower c = 98 ∨ asciiPkg.lower c = 97 ∨ asciiPkg.lower c = 115 ∨
      asciiPkg.lower c = 105 ∨ asciiPkg.lower c = 99) → c ≠ 32 := by decide

theorem ascii_space : ascii " " = [32] := by decide

/-- A header value that passes the check of `parseBasicAuth` for the
leading `Basic ` has the scheme token `Basic`, in some letter case, before
its first space. -/
theorem http.scheme_of_basic (auth : GoString)
    (hlen : ¬ auth.length < (ascii "Basic ").length)
    (hfold : asciiPkg.EqualFold (auth.take (ascii "Basic ").length) (ascii "Basic ") = true) :
    asciiPkg.EqualFold (strings.Cut auth (ascii " ")).1 (ascii "Basic") = true := by
  have hB : ascii "Basic" = [66, 97, 115, 105, 99] := by decide
  have l1 : asciiPkg.lower 66 = 98 := by decide
  have l2 : asciiPkg.lower 97 = 97 := by decide
  have l3 : asciiPkg.lower 115 = 115 := by decide
  have l4 : asciiPkg.lower 105 = 105 := by decide
  have l5 : asciiPkg.lower 99 = 99 := by decide
  have l6 : asciiPkg.lower 32 = 32 := by decide
  rw [ascii_Basic] at hlen hfold
  rw [ascii_space, hB]
  match auth, hlen, hfold with
  | a0 :: a1 :: a2 :: a3 :: a4 :: a5 :: rest, _, hfold =>
    simp only [List.length_cons, List.length_nil, List.take, asciiPkg.EqualFold, l1, l2, l3, l4,
      l5, l6, ne_eq, ite_not, Bool.if_false_right, Bool.and_eq_true, decide_eq_true_eq] at hfold
    obtain ⟨h0, h1, h2, h3, h4, h5, -⟩ := hfold
    have e5 := asciiPkg.lower_eq_space a5 h5
    subst e5
    have n0 := asciiPkg.lower_letter_ne_space a0 (by simp [h0])
    have n1 := asciiPkg.lower_letter_ne_space a1 (by simp [h1])
    have n2 := asciiPkg.lower_letter_ne_space a2 (by simp [h2])
    have n3 := asciiPkg.lower_letter_ne_space a3 (by simp [h3])
    have n4 := asciiPkg.lower_letter_ne_space a4 (by simp [h4])
    have hc := strings.Cut_append 32 [a0, a1, a2, a3, a4] rest
      (by simp [Ne.symm n0, Ne.symm n1, Ne.symm n2, Ne.symm n3, Ne.symm n4])
    simp only [List.cons_append, List.nil_append] at hc
    rw [hc]
    simp [asciiPkg.EqualFold, h0, h1, h2, h3, h4, l1, l2, l3, l4, l5]
  | [], h, _ => simp at h
  | [_], h, _ => simp at h
  | [_, _], h, _ => simp at h
  | [_, _, _], h, _ => simp at h
  | [_, _, _, _], h, _ => simp at h
  | [_, _, _, _, _], h, _ => simp at h

/-! ## The claims -/

/-- C1: `validateCredentials` returns true if and only if the supplied
username and password are the configured ones, as exact byte strings. This
holds for `validateCredentials` of main.go on `config.Username` and
`config.Password`, and for `(*BasicAuth).validateCredentials` on the gate
built by `NewBasicAuth(u, p)`, which stores `u` and `p` verbatim. -/
theorem validateCredentials_exact (port : Int) (dir u p u' p' : GoString) :
    (main.validateCredentials ⟨port, dir, u, p⟩ u' p' = true ↔ u' = u ∧ p' = p) ∧
    ((auth.NewBasicAuth u p).validateCredentials u' p' = true ↔ u' = u ∧ p' = p) ∧
    (auth.NewBasicAuth u p).credentials = ⟨u, p⟩ :=
  ⟨main_validateCredentials_iff _ _ _, auth_validateCredentials_iff _ _ _, rfl⟩

/-- C2: for every configured pair, every downstream handler and every
request the gate rejects (no Basic credentials can be extracted, or the
extracted pair is not the configured pair), the wrapped handler does not
invoke the downstream handler: the invocation count and the downstream
state are unchanged, the request is untouched and the answer is the one
`unauthorized` writes. This holds for `basicAuthMiddleware` and for
`(*BasicAuth).Middleware`. -/
theorem rejected_never_calls_downstream {σ : Type} (port : Int) (dir u p : GoString)
    (next : Handler σ) (w : ResponseWriter) (r : Request) (s : σ) (n : Nat)
    (h : r.BasicAuth.2.2 = false ∨ (r.BasicAuth.1, r.BasicAuth.2.1) ≠ (u, p)) :
    main.basicAuthMiddleware ⟨port, dir, u, p⟩ (counted next) w r (s, n) =
      (main.unauthorized w, r, (s, n)) ∧
    (auth.NewBasicAuth u p).Middleware (counted next) w r (s, n) =
      ((auth.NewBasicAuth u p).unauthorized w, r, (s, n)) := by
  constructor
  · apply main_middleware_reject
    rcases h with h | h
    · exact Or.inl h
    · exact Or.inr (main_validate_false_of_ne _ _ _ _ _ _ h)
  · apply auth_middleware_reject
    rcases h with h | h
    · exact Or.inl h
    · exact Or.inr (auth_validate_false_of_ne _ _ _ _ h)

theorem rejected_never_calls_downstream_witness :
    (wrongPassRequest.BasicAuth.2.2 = false ∨
      (wrongPassRequest.BasicAuth.1, wrongPassRequest.BasicAuth.2.1) ≠
        (ascii "testuser", ascii "testpass")) ∧
    (main.basicAuthMiddleware ⟨3000, ascii "/tmp/git", ascii "testuser", ascii "testpass"⟩
        (counted okHandler) NewRecorder wrongPassRequest ((), 0) =
      (main.unauthorized NewRecorder, wrongPassRequest, ((), 0)) ∧
    (auth.NewBasicAuth (ascii "testuser") (ascii "testpass")).Middleware (counted okHandler)
        NewRecorder wrongPassRequest ((), 0) =
      ((auth.NewBasicAuth (ascii "testuser") (ascii "testpass")).unauthorized NewRecorder,
        wrongPassRequest, ((), 0))) :=
  ⟨Or.inr (by decide),
    rejected_never_calls_downstream 3000 (ascii "/tmp/git") (ascii "testuser") (ascii "testpass")
      okHandler NewRecorder wrongPassRequest () 0 (Or.inr (by decide))⟩

/-- C3: for every configured pair, every downstream handler and every
request whose extracted Basic credentials are the configured pair, the
wrapped handler invokes the downstream handler exactly once, on the very
writer it was given, and returns what that invocation returned: the
response is the downstream response and the gate writes no status, header
or body of its own. (`basicAuthMiddleware` hands the request on with
`X-Remote-User` set, `(*BasicAuth).Middleware` hands it on as it is.) -/
theorem admitted_forwards_once {σ : Type} (port : Int) (dir u p : GoString)
    (next : Handler σ) (w : ResponseWriter) (r : Request) (s : σ) (n : Nat)
    (h : r.BasicAuth = (u, p, true)) :
    main.basicAuthMiddleware ⟨port, dir, u, p⟩ (counted next) w r (s, n) =
      ((next w { r with Header := r.Header.Set (ascii "X-Remote-User") u } s).1,
       (next w { r with Header := r.Header.Set (ascii "X-Remote-User") u } s).2.1,
       ((next w { r with Header := r.Header.Set (ascii "X-Remote-User") u } s).2.2, n + 1)) ∧
    (auth.NewBasicAuth u p).Middleware (counted next) w r (s, n) =
      ((next w r s).1, (next w r s).2.1, ((next w r s).2.2, n + 1)) := by
  constructor
  · rw [main_middleware_pass _ _ _ _ _ u p h (by simp [main.validateCredentials])]
    rfl
  · rw [auth_middleware_pass _ _ _ _ _ u p h
      (by simp [auth.BasicAuth.validateCredentials, auth.NewBasicAuth])]
    rfl

theorem admitted_forwards_once_witness :
    goodRequest.BasicAuth = (ascii "testuser", ascii "testpass", true) ∧
    (main.basicAuthMiddleware ⟨3000, ascii "/tmp/git", ascii "testuser", ascii "testpass"⟩
        (counted okHandler) NewRecorder goodRequest ((), 0) =
      ((okHandler NewRecorder { goodRequest with
          Header := goodRequest.Header.Set (ascii "X-Remote-User") (ascii "testuser") } ()).1,
       (okHandler NewRecorder { goodRequest with
          Header := goodRequest.Header.Set (ascii "X-Remote-User") (ascii "testuser") } ()).2.1,
       ((okHandler NewRecorder { goodRequest with
          Header := goodRequest.Header.Set (ascii "X-Remote-User") (ascii "testuser") } ()).2.2,
        0 + 1)) ∧
    (auth.NewBasicAuth (ascii "testuser") (ascii "testpass")).Middleware (counted okHandler)
        NewRecorder goodRequest ((), 0) =
      ((okHandler NewRecorder goodRequest ()).1, (okHandler NewRecorder goodRequest ()).2.1,
        ((okHandler NewRecorder goodRequest ()).2.2, 0 + 1))) :=
  ⟨by decide,
    admitted_forwards_once 3000 (ascii "/tmp/git") (ascii "testuser") (ascii "testpass")
      okHandler NewRecorder goodRequest () 0 (by decide)⟩

/-- C4: on a writer whose status line is not yet written (the writer of a
new request), the response of `unauthorized` has status 401, carries the
header `WWW-Authenticate` with the one value `Basic realm="Restricted"`, is
typed `text/plain`, and its body is what was written before (nothing, for a
new request) followed by the line `Unauthorized`, which `http.Error` ends
with a newline. `(*BasicAuth).unauthorized` writes the same response. -/
theorem unauthorized_response (ba : auth.BasicAuth) (w : ResponseWriter)
    (hw : w.wroteHeader = false) :
    (main.unauthorized w).Result.StatusCode = 401 ∧
    (main.unauthorized w).Result.Header.Get (ascii "WWW-Authenticate") =
      ascii "Basic realm=\"Restricted\"" ∧
    (main.unauthorized w).Result.Header (ascii "Www-Authenticate") =
      some [ascii "Basic realm=\"Restricted\""] ∧
    (main.unauthorized w).Result.Header.Get (ascii "Content-Type") =
      ascii "text/plain; charset=utf-8" ∧
    (main.unauthorized w).Result.Body = w.Body ++ ascii "Unauthorized\n" ∧
    ba.unauthorized w = main.unauthorized w := by
  have k1 : ascii "Www-Authenticate" ≠
      textproto.CanonicalMIMEHeaderKey (ascii "X-Content-Type-Options") := by decide
  have k2 : ascii "Www-Authenticate" ≠
      textproto.CanonicalMIMEHeaderKey (ascii "Content-Type") := by decide
  have k3 : ascii "Www-Authenticate" ≠
      textproto.CanonicalMIMEHeaderKey (ascii "Content-Length") := by decide
  have k4 : textproto.CanonicalMIMEHeaderKey (ascii "Content-Type") ≠
      textproto.CanonicalMIMEHeaderKey (ascii "X-Content-Type-Options") := by decide
  have hb : ascii "Unauthorized\n" = ascii "Unauthorized" ++ [10] := by decide
  refine ⟨?_, ?_, ?_, ?_, ?_, rfl⟩ <;> rw [main_unauthorized_fresh w hw]
  · rfl
  · simp [ResponseWriter.Result, Header.Get, Header.Set, Header.Del,
      textproto.canonical_WWWAuthenticate, k1, k2, k3]
  · simp [ResponseWriter.Result, Header.Set, Header.Del,
      textproto.canonical_WWWAuthenticate, k1, k2, k3]
  · simp [ResponseWriter.Result, Header.Get, Header.Set, Header.Del, k4]
  · simp [ResponseWriter.Result, hb]

theorem unauthorized_response_witness :
    NewRecorder.wroteHeader = false ∧
    ((main.unauthorized NewRecorder).Result.StatusCode = 401 ∧
    (main.unauthorized NewRecorder).Result.Header.Get (ascii "WWW-Authenticate") =
      ascii "Basic realm=\"Restricted\"" ∧
    (main.unauthorized NewRecorder).Result.Header (ascii "Www-Authenticate") =
      some [ascii "Basic realm=\"Restricted\""] ∧
    (main.unauthorized NewRecorder).Result.Header.Get (ascii "Content-Type") =
      ascii "text/plain; charset=utf-8" ∧
    (main.unauthorized NewRecorder).Result.Body = NewRecorder.Body ++ ascii "Unauthorized\n" ∧
    (auth.NewBasicAuth (ascii "testuser") (ascii "testpass")).unauthorized NewRecorder =
      main.unauthorized NewRecorder) :=
  ⟨rfl, unauthorized_response (auth.NewBasicAuth (ascii "testuser") (ascii "testpass"))
    NewRecorder rfl⟩

/-- C5: for every configured pair and any two rejected requests, whatever
the reason of each rejection (no header, malformed header, wrong username,
wrong password), the gate leaves the same response behind, in status,
headers and body: the response depends neither on the supplied credentials
nor on the check that failed. This holds for `basicAuthMiddleware`, for
`(*BasicAuth).Middleware`, and between the two. -/
theorem rejections_indistinguishable {σ : Type} (port : Int) (dir u p : GoString)
    (next : Handler σ) (w : ResponseWriter) (r1 r2 : Request) (s1 s2 : σ)
    (h1 : r1.BasicAuth.2.2 = false ∨ (r1.BasicAuth.1, r1.BasicAuth.2.1) ≠ (u, p))
    (h2 : r2.BasicAuth.2.2 = false ∨ (r2.BasicAuth.1, r2.BasicAuth.2.1) ≠ (u, p)) :
    (main.basicAuthMiddleware ⟨port, dir, u, p⟩ next w r1 s1).1.Result =
      (main.basicAuthMiddleware ⟨port, dir, u, p⟩ next w r2 s2).1.Result ∧
    ((auth.NewBasicAuth u p).Middleware next w r1 s1).1.Result =
      ((auth.NewBasicAuth u p).Middleware next w r2 s2).1.Result ∧
    (main.basicAuthMiddleware ⟨port, dir, u, p⟩ next w r1 s1).1.Result =
      ((auth.NewBasicAuth u p).Middleware next w r2 s2).1.Result := by
  have m : ∀ (r : Request) (s : σ),
      (r.BasicAuth.2.2 = false ∨ (r.BasicAuth.1, r.BasicAuth.2.1) ≠ (u, p)) →
      main.basicAuthMiddleware ⟨port, dir, u, p⟩ next w r s = (main.unauthorized w, r, s) := by
    intro r s h
    apply main_middleware_reject
    rcases h with h | h
    · exact Or.inl h
    · exact Or.inr (main_validate_false_of_ne _ _ _ _ _ _ h)
  have a : ∀ (r : Request) (s : σ),
      (r.BasicAuth.2.2 = false ∨ (r.BasicAuth.1, r.BasicAuth.2.1) ≠ (u, p)) →
      (auth.NewBasicAuth u p).Middleware next w r s = (main.unauthorized w, r, s) := by
    intro r s h
    apply auth_middleware_reject
    rcases h with h | h
    · exact Or.inl h
    · exact Or.inr (auth_validate_false_of_ne _ _ _ _ h)
  rw [m r1 s1 h1, m r2 s2 h2, a r1 s1 h1, a r2 s2 h2]
  exact ⟨rfl, rfl, rfl⟩

theorem rejections_indistinguishable_witness :
    (noAuthRequest.BasicAuth.2.2 = false ∨
      (noAuthRequest.BasicAuth.1, noAuthRequest.BasicAuth.2.1) ≠
        (ascii "testuser", ascii "testpass")) ∧
    (wrongPassRequest.BasicAuth.2.2 = false ∨
      (wrongPassRequest.BasicAuth.1, wrongPassRequest.BasicAuth.2.1) ≠
        (ascii "testuser", ascii "testpass")) ∧
    ((main.basicAuthMiddleware ⟨3000, ascii "/tmp/git", ascii "testuser", ascii "testpass"⟩
        okHandler NewRecorder noAuthRequest ()).1.Result =
      (main.basicAuthMiddleware ⟨3000, ascii "/tmp/git", ascii "testuser", ascii "testpass"⟩
        okHandler NewRecorder wrongPassRequest ()).1.Result ∧
    ((auth.NewBasicAuth (ascii "testuser") (ascii "testpass")).Middleware
        okHandler NewRecorder noAuthRequest ()).1.Result =
      ((auth.NewBasicAuth (ascii "testuser") (ascii "testpass")).Middleware
        okHandler NewRecorder wrongPassRequest ()).1.Result ∧
    (main.basicAuthMiddleware ⟨3000, ascii "/tmp/git", ascii "testuser", ascii "testpass"⟩
        okHandler NewRecorder noAuthRequest ()).1.Result =
      ((auth.NewBasicAuth (ascii "testuser") (ascii "testpass")).Middleware
        okHandler NewRecorder wrongPassRequest ()).1.Result) :=
  ⟨Or.inl (by decide), Or.inr (by decide),
    rejections_indistinguishable 3000 (ascii "/tmp/git") (ascii "testuser") (ascii "testpass")
      okHandler NewRecorder noAuthRequest wrongPassRequest () ()
      (Or.inl (by decide)) (Or.inr (by decide))⟩

/-- C6: for every configured pair, the pair of two empty strings included,
a request with no `Authorization` header is rejected: the answer has status
401 (on a writer whose status line is not yet written), the downstream
handler is not called and its state is unchanged. The empty username and
password of the failed extraction are not compared with the configuration. -/
theorem no_header_rejected {σ : Type} (port : Int) (dir u p : GoString)
    (next : Handler σ) (w : ResponseWriter) (r : Request) (s : σ) (n : Nat)
    (hw : w.wroteHeader = false) (h : r.Header (ascii "Authorization") = none) :
    main.basicAuthMiddleware ⟨port, dir, u, p⟩ (counted next) w r (s, n) =
      (main.unauthorized w, r, (s, n)) ∧
    (main.basicAuthMiddleware ⟨port, dir, u, p⟩ (counted next) w r (s, n)).1.Result.StatusCode
      = 401 ∧
    (auth.NewBasicAuth u p).Middleware (counted next) w r (s, n) =
      ((auth.NewBasicAuth u p).unauthorized w, r, (s, n)) ∧
    ((auth.NewBasicAuth u p).Middleware (counted next) w r (s, n)).1.Result.StatusCode
      = 401 := by
  have hb := http.BasicAuth_absent r h
  have m := main_middleware_reject ⟨port, dir, u, p⟩ (counted next) w r (s, n)
    (Or.inl (by rw [hb]))
  have a := auth_middleware_reject (auth.NewBasicAuth u p) (counted next) w r (s, n)
    (Or.inl (by rw [hb]))
  refine ⟨m, ?_, a, ?_⟩
  · rw [m]
    exact main_unauthorized_status w hw
  · rw [a]
    exact main_unauthorized_status w hw

theorem no_header_rejected_witness :
    NewRecorder.wroteHeader = false ∧
    noAuthRequest.Header (ascii "Authorization") = none ∧
    (main.basicAuthMiddleware ⟨3000, ascii "/tmp/git", [], []⟩ (counted okHandler)
        NewRecorder noAuthRequest ((), 0) =
      (main.unauthorized NewRecorder, noAuthRequest, ((), 0)) ∧
    (main.basicAuthMiddleware ⟨3000, ascii "/tmp/git", [], []⟩ (counted okHandler)
        NewRecorder noAuthRequest ((), 0)).1.Result.StatusCode = 401 ∧
    (auth.NewBasicAuth [] []).Middleware (counted okHandler) NewRecorder noAuthRequest ((), 0) =
      ((auth.NewBasicAuth [] []).unauthorized NewRecorder, noAuthRequest, ((), 0)) ∧
    ((auth.NewBasicAuth [] []).Middleware (counted okHandler)
        NewRecorder noAuthRequest ((), 0)).1.Result.StatusCode = 401) :=
  ⟨rfl, rfl,
    no_header_rejected 3000 (ascii "/tmp/git") [] [] okHandler NewRecorder noAuthRequest () 0
      rfl rfl⟩

/-- C7: for every username `u` without a colon and every password `p`, a
gate configured with `(u, p)` admits every request whose `Authorization`
header is `Basic ` followed by the standard base64 encoding of
`u + ":" + p` (the header `SetBasicAuth(u, p)` writes): the extraction
recovers exactly `(u, p)` and the downstream handler is invoked once, in
`basicAuthMiddleware` and in `(*BasicAuth).Middleware`. -/
theorem basic_header_admitted {σ : Type} (port : Int) (dir u p : GoString)
    (next : Handler σ) (w : ResponseWriter) (r : Request) (s : σ) (n : Nat)
    (hu : (58 : Byte) ∉ u)
    (hr : r.Header.Get (ascii "Authorization") =
      ascii "Basic " ++ base64.EncodeToString (u ++ ascii ":" ++ p)) :
    r.BasicAuth = (u, p, true) ∧
    (main.basicAuthMiddleware ⟨port, dir, u, p⟩ (counted next) w r (s, n)).2.2.2 = n + 1 ∧
    (main.basicAuthMiddleware ⟨port, dir, u, p⟩ (counted next) w r (s, n)).1 =
      (next w { r with Header := r.Header.Set (ascii "X-Remote-User") u } s).1 ∧
    ((auth.NewBasicAuth u p).Middleware (counted next) w r (s, n)).2.2.2 = n + 1 ∧
    ((auth.NewBasicAuth u p).Middleware (counted next) w r (s, n)).1 = (next w r s).1 ∧
    (∀ r0 : Request, (r0.SetBasicAuth u p).Header.Get (ascii "Authorization") =
      ascii "Basic " ++ base64.EncodeToString (u ++ ascii ":" ++ p)) := by
  have hb := http.BasicAuth_of_header r u p hu hr
  refine ⟨hb, ?_, ?_, ?_, ?_, fun r0 => http.Get_SetBasicAuth r0 u p⟩
  · rw [main_middleware_pass _ _ _ _ _ u p hb (by simp [main.validateCredentials])]
    rfl
  · rw [main_middleware_pass _ _ _ _ _ u p hb (by simp [main.validateCredentials])]
    rfl
  · rw [auth_middleware_pass _ _ _ _ _ u p hb
      (by simp [auth.BasicAuth.validateCredentials, auth.NewBasicAuth])]
    rfl
  · rw [auth_middleware_pass _ _ _ _ _ u p hb
      (by simp [auth.BasicAuth.validateCredentials, auth.NewBasicAuth])]
    rfl

/-- Scenario B: configured `("testuser", "testpass")`, the header built by
`SetBasicAuth("testuser", "testpass")`, a downstream handler that answers
200: the status of the response is 200. -/
theorem basic_header_admitted_witness :
    (main.basicAuthMiddleware testConfig (counted okHandler) NewRecorder goodRequest
      ((), 0)).1.Result.StatusCode = 200 ∧
    (main.basicAuthMiddleware testConfig (counted okHandler) NewRecorder goodRequest
      ((), 0)).2.2.2 = 0 + 1 ∧
    goodRequest.BasicAuth = (ascii "testuser", ascii "testpass", true) :=
  have h := basic_header_admitted 3000 (ascii "/tmp/git-test") (ascii "testuser")
    (ascii "testpass") okHandler NewRecorder goodRequest () 0 (by decide) (by decide)
  ⟨by decide, h.2.1, h.1⟩

/-- C8: for every configured pair and every request whose `Authorization`
header is absent, names a scheme other than `Basic` before its first space
or does not begin with `Basic ` in any letter case, has a payload that
`DecodeString` rejects (not valid base64), or decodes to text without a
colon, the extraction fails and the gate rejects the request: status 401
(on a writer whose status line is not yet written), downstream handler not
called, downstream state unchanged. This holds for `basicAuthMiddleware`
and for `(*BasicAuth).Middleware`. -/
theorem malformed_header_rejected {σ : Type} (port : Int) (dir u p : GoString)
    (next : Handler σ) (w : ResponseWriter) (r : Request) (s : σ) (n : Nat)
    (hw : w.wroteHeader = false)
    (h : r.Header (ascii "Authorization") = none ∨
      asciiPkg.EqualFold (strings.Cut (r.Header.Get (ascii "Authorization")) (ascii " ")).1
        (ascii "Basic") = false ∨
      ((r.Header.Get (ascii "Authorization")).length < (ascii "Basic ").length ∨
        asciiPkg.EqualFold ((r.Header.Get (ascii "Authorization")).take (ascii "Basic ").length)
          (ascii "Basic ") = false) ∨
      base64.DecodeString ((r.Header.Get (ascii "Authorization")).drop (ascii "Basic ").length)
        = none ∨
      (∃ c, base64.DecodeString
          ((r.Header.Get (ascii "Authorization")).drop (ascii "Basic ").length) = some c ∧
        (58 : Byte) ∉ c)) :
    r.BasicAuth = ([], [], false) ∧
    main.basicAuthMiddleware ⟨port, dir, u, p⟩ (counted next) w r (s, n) =
      (main.unauthorized w, r, (s, n)) ∧
    (main.basicAuthMiddleware ⟨port, dir, u, p⟩ (counted next) w r (s, n)).1.Result.StatusCode
      = 401 ∧
    (auth.NewBasicAuth u p).Middleware (counted next) w r (s, n) =
      ((auth.NewBasicAuth u p).unauthorized w, r, (s, n)) ∧
    ((auth.NewBasicAuth u p).Middleware (counted next) w r (s, n)).1.Result.StatusCode
      = 401 := by
  have hb : r.BasicAuth = ([], [], false) := by
    apply http.BasicAuth_fail
    rcases hres : r.BasicAuth with ⟨un, pw, ok⟩
    cases ok
    · rfl
    · exfalso
      have hres1 := hres
      unfold Request.BasicAuth at hres1
      dsimp only at hres1
      split_ifs at hres1 with he
      · simp at hres1
      · obtain ⟨hpre, c, hdec, hcut⟩ := http.parseBasicAuth_ok _ _ _ hres1
        rcases h with h | h | h | h | ⟨c1, h, hc⟩
        · have := http.BasicAuth_absent r h
          rw [hres] at this
          simp at this
        · rw [http.scheme_of_basic _ (fun hl => hpre (Or.inl hl))
            (by simpa using fun hf => hpre (Or.inr hf))] at h
          simp at h
        · exact hpre h
        · rw [hdec] at h
          simp at h
        · rw [hdec] at h
          simp only [Option.some.injEq] at h
          subst h
          rw [strings.Cut_of_not_mem 58 c hc] at hcut
          simp at hcut
  have m := main_middleware_reject ⟨port, dir, u, p⟩ (counted next) w r (s, n)
    (Or.inl (by rw [hb]))
  have a := auth_middleware_reject (auth.NewBasicAuth u p) (counted next) w r (s, n)
    (Or.inl (by rw [hb]))
  refine ⟨hb, m, ?_, a, ?_⟩
  · rw [m]
    exact main_unauthorized_status w hw
  · rw [a]
    exact main_unauthorized_status w hw

/-- Scenario D: configured `("testuser", "testpass")` and a header value
that is not valid base64. -/
theorem malformed_header_rejected_witness :
    base64.DecodeString
      ((malformedRequest.Header.Get (ascii "Authorization")).drop (ascii "Basic ").length)
        = none ∧
    (main.basicAuthMiddleware testConfig (counted okHandler) NewRecorder malformedRequest
      ((), 0)).1.Result.StatusCode = 401 ∧
    main.basicAuthMiddleware testConfig (counted okHandler) NewRecorder malformedRequest ((), 0) =
      (main.unauthorized NewRecorder, malformedRequest, ((), 0)) :=
  have h := malformed_header_rejected 3000 (ascii "/tmp/git-test") (ascii "testuser")
    (ascii "testpass") okHandler NewRecorder malformedRequest () 0 rfl
    (Or.inr (Or.inr (Or.inr (Or.inl (by decide)))))
  ⟨by decide, h.2.2.1, h.2.1⟩

/-- C9: in `basicAuthMiddleware`, for every admitted request the request
handed to the downstream handler carries the header `X-Remote-User` with
exactly one value, the authenticated username, which is `config.Username`,
whatever `X-Remote-User` the client sent; every other header and the rest
of the request are unchanged. -/
theorem remote_user_header_set (port : Int) (dir u p : GoString) (w : ResponseWriter)
    (r : Request) (log : List Request) (h : r.BasicAuth = (u, p, true)) :
    ∃ r1 : Request,
      main.basicAuthMiddleware ⟨port, dir, u, p⟩ spy w r log = (w, r1, log ++ [r1]) ∧
      (∀ (σ : Type) (next : Handler σ) (s : σ),
        main.basicAuthMiddleware ⟨port, dir, u, p⟩ next w r s = next w r1 s) ∧
      r1.Header (ascii "X-Remote-User") = some [u] ∧
      r1.Header.Get (ascii "X-Remote-User") = u ∧
      r1.Header.Get (ascii "x-remote-user") = u ∧
      (∀ k, k ≠ ascii "X-Remote-User" → r1.Header k = r.Header k) ∧
      r1.Method = r.Method ∧ r1.RequestURI = r.RequestURI ∧ r1.Body = r.Body := by
  have hlow : textproto.CanonicalMIMEHeaderKey (ascii "x-remote-user") =
      ascii "X-Remote-User" := by decide
  have hv : main.validateCredentials ⟨port, dir, u, p⟩ u p = true := by
    simp [main.validateCredentials]
  refine ⟨{ r with Header := r.Header.Set (ascii "X-Remote-User") u }, ?_, ?_, ?_, ?_, ?_, ?_,
    rfl, rfl, rfl⟩
  · rw [main_middleware_pass _ _ _ _ _ u p h hv]
    rfl
  · intro σ next s
    exact main_middleware_pass _ _ _ _ _ u p h hv
  · simp [Header.Set, textproto.canonical_XRemoteUser]
  · simp [Header.Get, Header.Set, textproto.canonical_XRemoteUser]
  · simp [Header.Get, Header.Set, textproto.canonical_XRemoteUser, hlow]
  · intro k hk
    simp [Header.Set, textproto.canonical_XRemoteUser, hk]

/-- A client that sends `X-Remote-User: admin` with the right credentials:
the downstream handler sees `X-Remote-User: testuser`. -/
theorem remote_user_header_set_witness :
    spoofingRequest.Header.Get (ascii "X-Remote-User") = ascii "admin" ∧
    spoofingRequest.BasicAuth = (ascii "testuser", ascii "testpass", true) ∧
    ∃ r1 : Request,
      main.basicAuthMiddleware ⟨3000, ascii "/tmp/git", ascii "testuser", ascii "testpass"⟩
        spy NewRecorder spoofingRequest [] = (NewRecorder, r1, [] ++ [r1]) ∧
      (∀ (σ : Type) (next : Handler σ) (s : σ),
        main.basicAuthMiddleware ⟨3000, ascii "/tmp/git", ascii "testuser", ascii "testpass"⟩
          next NewRecorder spoofingRequest s = next NewRecorder r1 s) ∧
      r1.Header (ascii "X-Remote-User") = some [ascii "testuser"] ∧
      r1.Header.Get (ascii "X-Remote-User") = ascii "testuser" ∧
      r1.Header.Get (ascii "x-remote-user") = ascii "testuser" ∧
      (∀ k, k ≠ ascii "X-Remote-User" → r1.Header k = spoofingRequest.Header k) ∧
      r1.Method = spoofingRequest.Method ∧ r1.RequestURI = spoofingRequest.RequestURI ∧
      r1.Body = spoofingRequest.Body :=
  ⟨by decide, by decide,
    remote_user_header_set 3000 (ascii "/tmp/git") (ascii "testuser") (ascii "testpass")
      NewRecorder spoofingRequest [] (by decide)⟩

/-- C10: if the configured username contains a colon, no request is ever
admitted: for every request the username `BasicAuth` returns has no colon
(the decoded text is cut at its first colon, and a failed extraction
returns the empty string), so `validateCredentials` returns false and the
gate answers with `unauthorized`, status 401 on a writer whose status line
is not yet written, without calling the downstream handler. This holds
for `basicAuthMiddleware` and for `(*BasicAuth).Middleware`. -/
theorem colon_username_never_admitted {σ : Type} (port : Int) (dir u p : GoString)
    (next : Handler σ) (w : ResponseWriter) (r : Request) (s : σ) (n : Nat)
    (hw : w.wroteHeader = false) (hu : (58 : Byte) ∈ u) :
    (r.BasicAuth.2.2 = false ∨ (58 : Byte) ∉ r.BasicAuth.1) ∧
    main.validateCredentials ⟨port, dir, u, p⟩ r.BasicAuth.1 r.BasicAuth.2.1 = false ∧
    (auth.NewBasicAuth u p).validateCredentials r.BasicAuth.1 r.BasicAuth.2.1 = false ∧
    main.basicAuthMiddleware ⟨port, dir, u, p⟩ (counted next) w r (s, n) =
      (main.unauthorized w, r, (s, n)) ∧
    (main.basicAuthMiddleware ⟨port, dir, u, p⟩ (counted next) w r (s, n)).1.Result.StatusCode
      = 401 ∧
    (auth.NewBasicAuth u p).Middleware (counted next) w r (s, n) =
      ((auth.NewBasicAuth u p).unauthorized w, r, (s, n)) ∧
    ((auth.NewBasicAuth u p).Middleware (counted next) w r (s, n)).1.Result.StatusCode
      = 401 := by
  have hno := http.BasicAuth_fst_no_colon r
  have hne : (r.BasicAuth.1, r.BasicAuth.2.1) ≠ (u, p) := by
    intro e
    simp only [Prod.mk.injEq] at e
    rw [e.1] at hno
    exact hno hu
  have hm := main_validate_false_of_ne port dir u p _ _ hne
  have ha := auth_validate_false_of_ne u p _ _ hne
  have m := main_middleware_reject ⟨port, dir, u, p⟩ (counted next) w r (s, n) (Or.inr hm)
  have a := auth_middleware_reject (auth.NewBasicAuth u p) (counted next) w r (s, n) (Or.inr ha)
  refine ⟨Or.inr hno, hm, ha, m, ?_, a, ?_⟩
  · rw [m]
    exact main_unauthorized_status w hw
  · rw [a]
    exact main_unauthorized_status w hw

/-- Configured `("test:user", "testpass")`: the request built by
`SetBasicAuth("test:user", "testpass")` is answered 401. -/
theorem colon_username_never_admitted_witness :
    (58 : Byte) ∈ ascii "test:user" ∧
    ((requestWith Header.empty).SetBasicAuth (ascii "test:user") (ascii "testpass")).BasicAuth =
      (ascii "test", ascii "user:testpass", true) ∧
    (main.basicAuthMiddleware ⟨3000, ascii "/tmp/git", ascii "test:user", ascii "testpass"⟩
      (counted okHandler) NewRecorder
      ((requestWith Header.empty).SetBasicAuth (ascii "test:user") (ascii "testpass"))
      ((), 0)).1.Result.StatusCode = 401 ∧
    ((auth.NewBasicAuth (ascii "test:user") (ascii "testpass")).Middleware
      (counted okHandler) NewRecorder
      ((requestWith Header.empty).SetBasicAuth (ascii "test:user") (ascii "testpass"))
      ((), 0)).1.Result.StatusCode = 401 :=
  have h := colon_username_never_admitted 3000 (ascii "/tmp/git") (ascii "test:user")
    (ascii "testpass") okHandler NewRecorder
    ((requestWith Header.empty).SetBasicAuth (ascii "test:user") (ascii "testpass")) () 0
    rfl (by decide)
  ⟨by decide, by decide, h.2.2.2.2.1, h.2.2.2.2.2.2⟩

end GitHttpBackend
